import Mathlib

/-!
Verification development for the data-acquisition layer of `src/app.py`
(HR-Tech dashboard): the structural IR/news extractor `fetch_ir_news` with
its helper `_extract_date` and regex `DATE_PAT`, the quote fetcher
`fetch_stock`, the RSS fetcher `fetch_google_news`, and the expiring
memoization cache those fetchers are wrapped in.

Strings are modelled by Lean `String`; character-level scanning is done on
`String.data` (the list of unicode scalar values), matching Python's
code-point view of `str`.
-/

namespace NewsStock

/-- One news record: the dict literal built at app.py:234-235 and
app.py:256-257 (and app.py:186-191 for the RSS fetcher), with keys
`date`, `title`, `link`, `source`, all strings. -/
structure NewsRecord where
  date : String
  title : String
  link : String
  source : String
deriving DecidableEq

/-- Class `\d` of `DATE_PAT` (app.py:207), modelled on the ASCII decimal
digits (Python's `\d` also accepts other Unicode decimal digits; no
property below depends on those). -/
def isDig (c : Char) : Bool := '0' ≤ c && c ≤ '9'

/-- Separator class `[./年]` of `DATE_PAT` (app.py:207). -/
def isYSep (c : Char) : Bool := c == '.' || c == '/' || c == '年'

/-- Separator class `[./月]` of `DATE_PAT` (app.py:207). -/
def isMSep (c : Char) : Bool := c == '.' || c == '/' || c == '月'

/-- The list starts with a `\d` character. -/
def digitHead : List Char → Bool
  | c :: _ => isDig c
  | [] => false

/-- The list starts with `[./月]\d`. -/
def msepDigitHead : List Char → Bool
  | s :: c :: _ => isMSep s && isDig c
  | _ => false

/-- Prefix match of the tail `\d{1,2}[./月]\d{1,2}` of `DATE_PAT`: either a
one-digit or a two-digit month, then a month separator, then at least one
day digit (trailing characters are ignored, as under `re.search`). -/
def monthDayAt : List Char → Bool
  | d :: x :: rest =>
    isDig d && ((isMSep x && digitHead rest) || (isDig x && msepDigitHead rest))
  | _ => false

/-- Prefix match of the full pattern `\d{4}[./年]\d{1,2}[./月]\d{1,2}`
(app.py:207) at the head of the character list. -/
def datePatAt : List Char → Bool
  | a :: b :: c :: d :: s :: rest =>
    isDig a && isDig b && isDig c && isDig d && isYSep s && monthDayAt rest
  | _ => false

/-- Embedding of `DATE_PAT.search(s)` (app.py:211) as a Boolean: the pattern
matches at some position of the character list. -/
def datePatSearch : List Char → Bool
  | [] => false
  | c :: rest => datePatAt (c :: rest) || datePatSearch rest

/-- String form of `DATE_PAT.search(s) is not None`. -/
def hasDatePat (s : String) : Bool := datePatSearch s.data

/-- Python whitespace as stripped by `str.strip()` (ASCII part; the unicode
spaces Python also strips never occur in the properties below). -/
def isPyWS (c : Char) : Bool :=
  c == ' ' || c == '\t' || c == '\n' || c == '\r' || c == '\x0b' || c == '\x0c'

/-- Model of Python `s.strip()`. -/
def pyStrip (s : String) : String :=
  String.mk (((s.data.dropWhile isPyWS).reverse.dropWhile isPyWS).reverse)

/-- Embedding of the helper `_extract_date(node)` (app.py:209-213): scan the
node's stripped text strings in document order; on the first string on which
`DATE_PAT.search` succeeds, return that whole string stripped; return `""`
when no string matches. The node is represented by its list of
`stripped_strings`. -/
def extractDate : List String → String
  | [] => ""
  | s :: rest => if hasDatePat s then pyStrip s else extractDate rest

/-- Model of an HTML anchor element as the extractor consumes it: `text` is
`a.get_text(strip=True)` and `href` is `a.get("href", "")` (an absent
attribute is modelled as `""`, exactly the default the code uses). -/
structure Anchor where
  text : String
  href : String
deriving DecidableEq

/-- Model of a `<li>` element: `a?` is `li.find("a")` (the first descendant
anchor in document order, if any) and `texts` is `li.stripped_strings` in
document order. -/
structure LiElem where
  a? : Option Anchor
  texts : List String
deriving DecidableEq

/-- Model of a `<ul>` element as the list `ul.find_all("li")` in document
order. -/
structure UlElem where
  lis : List LiElem
deriving DecidableEq

/-- Model of a `<dt>` or `<dd>` element: `a?` is `find("a")` on it and
`texts` its `stripped_strings`. -/
structure DElem where
  a? : Option Anchor
  texts : List String
deriving DecidableEq

/-- Model of a `<dl>` element as the lists `dl.find_all("dt")` and
`dl.find_all("dd")` in document order. -/
structure DlElem where
  dts : List DElem
  dds : List DElem
deriving DecidableEq

/-- Model of the parsed document as `soup.find_all("ul")` and
`soup.find_all("dl")` in document order: the only whole-document queries
`fetch_ir_news` performs (app.py:221, 242). -/
structure Doc where
  uls : List UlElem
  dls : List DlElem
deriving DecidableEq

/-- The string starts with `"http"`, i.e. Python `href.startswith("http")`
(app.py:232, 254). -/
def startsWithHttp (s : String) : Bool := "http".data.isPrefixOf s.data

/-- Split a character list at the first occurrence of `"://"`, returning the
parts before and after it (helper for the `urljoin` model). -/
def splitScheme : List Char → Option (List Char × List Char)
  | [] => none
  | ':' :: '/' :: '/' :: rest => some ([], rest)
  | c :: rest =>
    match splitScheme rest with
    | some (pre, post) => some (c :: pre, post)
    | none => none

/-- Scheme part of an absolute URL `scheme://…` (helper for the `urljoin`
model). -/
def schemeOf (u : String) : String :=
  match splitScheme u.data with
  | some (pre, _) => String.mk pre
  | none => u

/-- Origin `scheme://host` of an absolute URL (helper for the `urljoin`
model). -/
def originOf (u : String) : String :=
  match splitScheme u.data with
  | some (pre, post) =>
    String.mk (pre ++ ':' :: '/' :: '/' :: post.takeWhile (fun c => c != '/'))
  | none => u

/-- Base directory `scheme://host/…/` of an absolute URL, up to and
including the last slash of its path (helper for the `urljoin` model). -/
def dirOf (u : String) : String :=
  match splitScheme u.data with
  | some (pre, post) =>
    if post.contains '/' then
      String.mk (pre ++ ':' :: '/' :: '/' :: (post.reverse.dropWhile (fun c => c != '/')).reverse)
    else String.mk (pre ++ ':' :: '/' :: '/' :: post ++ ['/'])
  | none => u

/-- The reference carries its own URI scheme (`alpha+:`), so a join leaves
it unchanged (helper for the `urljoin` model). -/
def hasScheme (r : String) : Bool :=
  let pre := r.data.takeWhile (fun c => c != ':')
  !pre.isEmpty && pre.all Char.isAlpha && pre.length < r.data.length

/-- Model of `urllib.parse.urljoin(base, rel)` (Python standard library, not
part of this repository) for the http(s) bases this program supplies: a
reference with its own scheme is returned unchanged, a protocol-relative
`//…` reference takes the base's scheme, a root-relative `/…` reference is
appended to the base's origin, and any other reference replaces the last
path segment of the base. -/
def urljoin (base rel : String) : String :=
  if rel == "" then base
  else if hasScheme rel then rel
  else if "//".data.isPrefixOf rel.data then schemeOf base ++ ":" ++ rel
  else if "/".data.isPrefixOf rel.data then originOf base ++ rel
  else dirOf base ++ rel

/-- Embedding of the href normalization at app.py:231-233 and app.py:253-255:
a non-empty `href` that does not start with `"http"` is replaced by
`urljoin(url, href)`; any other `href` (empty, or starting with `"http"`)
is kept unchanged. -/
def resolveHref (base href : String) : String :=
  if !(href == "") && !startsWithHttp href then urljoin base href else href

/-- Per-item step of Strategy A (app.py:224-235): skip the item when it has
no anchor; otherwise take the anchor's text as title, skip the item when the
title is shorter than 5 characters, and otherwise build the record with the
item's extracted date, the resolved link and the fixed source `"IR"`. -/
def liRecord (base : String) (li : LiElem) : Option NewsRecord :=
  match li.a? with
  | none => none
  | some a =>
    if a.text.length < 5 then none
    else some { date := extractDate li.texts, title := a.text,
                link := resolveHref base a.href, source := "IR" }

/-- Batch of qualifying items collected from one `<ul>` (app.py:222-235). -/
def batchA (base : String) (ul : UlElem) : List NewsRecord :=
  ul.lis.filterMap (liRecord base)

/-- Strategy A scan (app.py:221-238): walk the unordered lists in document
order; the first one whose batch has at least 3 qualifying items is
accepted, its batch truncated to 20 becomes the result and the scan stops;
otherwise the scan yields the empty list. -/
def strategyA (base : String) : List UlElem → List NewsRecord
  | [] => []
  | ul :: rest =>
    let batch := batchA base ul
    if 3 ≤ batch.length then batch.take 20 else strategyA base rest

/-- Per-pair step of Strategy B (app.py:248-257): the anchor is taken from
the description element or, failing that, from the term element (`dd.find("a")
or dt.find("a")`); a pair with no anchor is skipped; the date is the term's
extracted date or, when that is empty, the description's (`_extract_date(dt)
or _extract_date(dd)`). No minimum title length applies. -/
def pairRecord (base : String) (dt dd : DElem) : Option NewsRecord :=
  match (match dd.a? with | some a => some a | none => dt.a?) with
  | none => none
  | some a =>
    let d := extractDate dt.texts
    some { date := if d == "" then extractDate dd.texts else d,
           title := a.text, link := resolveHref base a.href, source := "IR" }

/-- Batch of qualifying pairs collected from one `<dl>`: `zip(dts, dds)`
pairs term i with description i (app.py:248). -/
def batchB (base : String) (dl : DlElem) : List NewsRecord :=
  (dl.dts.zip dl.dds).filterMap (fun p => pairRecord base p.1 p.2)

/-- Strategy B scan (app.py:241-260): walk the definition lists in document
order, skipping lists with fewer than 2 term elements; the first one whose
batch has at least 2 qualifying pairs is accepted, its batch truncated to 20
becomes the result and the scan stops. -/
def strategyB (base : String) : List DlElem → List NewsRecord
  | [] => []
  | dl :: rest =>
    if dl.dts.length < 2 then strategyB base rest
    else
      let batch := batchB base dl
      if 2 ≤ batch.length then batch.take 20 else strategyB base rest

/-- The extractor core of `fetch_ir_news` (app.py:221-263) on an already
parsed document: Strategy A; when it produced nothing (`if not results:`),
Strategy B. -/
def extractIrNews (doc : Doc) (url : String) : List NewsRecord :=
  let r := strategyA url doc.uls
  if r == [] then strategyB url doc.dls else r

/-- Outcome of the network part of `fetch_ir_news` (app.py:216-218):
`raised` covers an exception or timeout in `requests.get`; otherwise the
response carries an HTTP status and the outcome of parsing its body
(`BeautifulSoup(resp.content, "lxml")`), which may itself fail. -/
inductive IrFetchOutcome where
  | raised : IrFetchOutcome
  | response : Nat → Except Unit Doc → IrFetchOutcome

/-- Embedding of `fetch_ir_news(url)` (app.py:197-263): any exception inside
the `try` block — the request raising or timing out, `raise_for_status`
raising on a 4xx/5xx status, or the parse failing — is swallowed and the
empty result list is returned; otherwise the extractor runs on the parsed
document. -/
def fetch_ir_news (o : IrFetchOutcome) (url : String) : List NewsRecord :=
  match o with
  | .raised => []
  | .response status parsed =>
    if 400 ≤ status ∧ status < 600 then []
    else
      match parsed with
      | .error _ => []
      | .ok doc => extractIrNews doc url

/-- Model of a pandas OHLCV history frame as a list of rows; `pd.DataFrame()`
is the empty frame. Numeric contents are abstract: no verified property
inspects them. -/
structure Frame where
  rows : List (List Int)
deriving DecidableEq

/-- The empty frame `pd.DataFrame()` (app.py:171). -/
def Frame.empty : Frame := ⟨[]⟩

/-- Model of the yfinance `info` dict as a list of key/value pairs; `{}` is
the empty map. -/
structure InfoMap where
  entries : List (String × String)
deriving DecidableEq

/-- The empty info map `{}` (app.py:164, 171). -/
def InfoMap.empty : InfoMap := ⟨[]⟩

/-- Embedding of `fetch_stock(ticker, period)` (app.py:159-171): when the
history call raises, return the empty frame and empty info map; otherwise
keep the history and, when the inner `t.info` access raises, fall back to
the empty info map (`info = {}` plus inner `try`/`except: pass`). -/
def fetch_stock (histCall : Except Unit Frame) (infoCall : Except Unit InfoMap) :
    Frame × InfoMap :=
  match histCall with
  | .error _ => (Frame.empty, InfoMap.empty)
  | .ok hist =>
    (hist, match infoCall with
           | .error _ => InfoMap.empty
           | .ok i => i)

/-- Model of one feedparser entry as `fetch_google_news` reads it
(app.py:181-191): `published` is the `%Y-%m-%d`-formatted value of
`published_parsed` when present (the strftime formatting itself is external
library behaviour and is abstracted to the resulting string); `sourceTitle`
is the feed source's title when present. -/
structure FeedEntry where
  published : Option String
  title : String
  link : String
  sourceTitle : Option String
deriving DecidableEq

/-- Record built from one feed entry (app.py:182-191). -/
def entryRecord (e : FeedEntry) : NewsRecord :=
  { date := e.published.getD "", title := e.title, link := e.link,
    source := e.sourceTitle.getD "Google News" }

/-- Embedding of `fetch_google_news(query)` (app.py:175-194): on any
exception the empty list is returned; otherwise the first 20 entries are
mapped to records. -/
def fetch_google_news (feed : Except Unit (List FeedEntry)) : List NewsRecord :=
  match feed with
  | .error _ => []
  | .ok entries => (entries.take 20).map entryRecord

/-- Cache state of the expiring memoization cache: a list of
(key, value, storage-timestamp) entries. -/
structure Cache (α : Type) where
  entries : List (String × α × Nat)

/-- Modelled from the spec: the Expiring Memoization Cache behind the
`st.cache_data(ttl=…)` decorators (app.py:159, 174, 197) is library code
not present in this repository's sources. Lookup returns the stored value
only while `now - timestamp < ttl`; an expired entry is indistinguishable
from an absent one. -/
def Cache.lookup {α : Type} (c : Cache α) (key : String) (now ttl : Nat) : Option α :=
  match c.entries.find? (fun e => e.1 == key) with
  | some e => if now - e.2.2 < ttl then some e.2.1 else none
  | none => none

/-- Modelled from the spec: `get_or_compute(key, compute_fn, ttl)` returns
the cached value if an unexpired entry exists for `key`; otherwise it
invokes `compute_fn()`, stores the result with the current time (replacing
any stale entry for the key) and returns it. The result triple carries the
value, the new cache state, and whether `compute_fn` was invoked. -/
def get_or_compute {α : Type} (c : Cache α) (key : String) (now ttl : Nat)
    (compute : Unit → α) : α × Cache α × Bool :=
  match c.lookup key now ttl with
  | some v => (v, c, false)
  | none =>
    let v := compute ()
    (v, ⟨(key, v, now) :: c.entries.filter (fun e => !(e.1 == key))⟩, true)

/-- Concrete base URL used by the concrete example documents below. -/
def c3Base : String := "https://example.com/ir/"

/-- Concrete document: a single `<ul>` with exactly 3 qualifying
`<li><a>…</a></li>` items (titles of length at least 5, no date text). -/
def c3Doc : Doc :=
  ⟨[⟨[⟨some ⟨"Quarterly results announced", "https://example.com/news/1"⟩,
        ["Quarterly results announced"]⟩,
      ⟨some ⟨"New product line unveiled", "https://example.com/news/2"⟩,
        ["New product line unveiled"]⟩,
      ⟨some ⟨"Office relocation notice", "https://example.com/news/3"⟩,
        ["Office relocation notice"]⟩]⟩], []⟩

/-- First record the extractor produces on `c3Doc`. -/
def c3Rec1 : NewsRecord :=
  ⟨"", "Quarterly results announced", "https://example.com/news/1", "IR"⟩

/-- Concrete document: one `<dl>` with 2 `<dt>`/`<dd>` pairs whose anchors
have empty visible text. -/
def c2Doc : Doc :=
  ⟨[], [⟨[⟨none, []⟩, ⟨none, []⟩],
         [⟨some ⟨"", "https://example.com/a1"⟩, []⟩,
          ⟨some ⟨"", "https://example.com/a2"⟩, []⟩]⟩]⟩

/-- Concrete document: one `<dl>` with exactly 2 `<dt>`/`<dd>` pairs, dates
in the terms and anchors in the descriptions. -/
def c4Doc : Doc :=
  ⟨[], [⟨[⟨none, ["2024.01.10"]⟩, ⟨none, ["2024.02.20"]⟩],
         [⟨some ⟨"Earnings report released", "https://example.com/ir/1"⟩,
            ["Earnings report released"]⟩,
          ⟨some ⟨"Dividend forecast revised", "https://example.com/ir/2"⟩,
            ["Dividend forecast revised"]⟩]⟩]⟩

/-- Concrete document: a qualifying `<ul>` whose anchors carry relative
hrefs that happen to begin with the four letters `http`. -/
def c6Doc : Doc :=
  ⟨[⟨[⟨some ⟨"Announcement number one", "httpnews/page1.html"⟩,
        ["Announcement number one"]⟩,
      ⟨some ⟨"Announcement number two", "httpnews/page2.html"⟩,
        ["Announcement number two"]⟩,
      ⟨some ⟨"Announcement number three", "httpnews/page3.html"⟩,
        ["Announcement number three"]⟩]⟩], []⟩

/-- Concrete definition list with 3 term elements (each holding an anchor)
but only 1 description element. -/
def c10Dl : DlElem :=
  ⟨[⟨some ⟨"Term anchor one", "https://example.com/t1"⟩, []⟩,
    ⟨some ⟨"Term anchor two", "https://example.com/t2"⟩, []⟩,
    ⟨some ⟨"Term anchor three", "https://example.com/t3"⟩, []⟩],
   [⟨none, []⟩]⟩

/-- Strategy A equals: find the first unordered list whose batch reaches 3
qualifying items, return its batch truncated to 20, else the empty list. -/
theorem strategyA_char (base : String) (uls : List UlElem) :
    strategyA base uls =
      match uls.find? (fun ul => decide (3 ≤ (batchA base ul).length)) with
      | some ul => (batchA base ul).take 20
      | none => [] := by
  induction uls with
  | nil => rfl
  | cons ul rest ih =>
    by_cases h : 3 ≤ (batchA base ul).length
    · rw [List.find?_cons_of_pos _ (by simpa using h)]
      simp only [strategyA, if_pos h]
    · rw [List.find?_cons_of_neg _ (by simpa using h)]
      simp only [strategyA, if_neg h]
      exact ih

/-- Strategy B equals: find the first definition list with at least 2 terms
whose batch reaches 2 qualifying pairs, return its batch truncated to 20,
else the empty list. -/
theorem strategyB_char (base : String) (dls : List DlElem) :
    strategyB base dls =
      match dls.find? (fun dl =>
          !decide (dl.dts.length < 2) && decide (2 ≤ (batchB base dl).length)) with
      | some dl => (batchB base dl).take 20
      | none => [] := by
  induction dls with
  | nil => rfl
  | cons dl rest ih =>
    by_cases h1 : dl.dts.length < 2
    · rw [List.find?_cons_of_neg _ (by simp [h1])]
      simp only [strategyB, if_pos h1]
      exact ih
    · by_cases h2 : 2 ≤ (batchB base dl).length
      · rw [List.find?_cons_of_pos _ (by simp [h1, h2])]
        simp only [strategyB, if_neg h1, if_pos h2]
      · rw [List.find?_cons_of_neg _ (by simp [h1, h2])]
        simp only [strategyB, if_neg h1, if_neg h2]
        exact ih

/-- A record produced from one list item has a title of length at least 5
and a link produced by `resolveHref`. -/
theorem liRecord_spec (base : String) (li : LiElem) (r : NewsRecord)
    (h : liRecord base li = some r) :
    5 ≤ r.title.length ∧ ∃ a, r.link = resolveHref base a := by
  cases ha : li.a? with
  | none => simp [liRecord, ha] at h
  | some a =>
    by_cases hl : a.text.length < 5
    · simp [liRecord, ha, hl] at h
    · simp only [liRecord, ha, if_neg hl, Option.some.injEq] at h
      subst h
      exact ⟨Nat.le_of_not_lt hl, a.href, rfl⟩

/-- A record produced from one term/description pair has a link produced by
`resolveHref`. -/
theorem pairRecord_spec (base : String) (dt dd : DElem) (r : NewsRecord)
    (h : pairRecord base dt dd = some r) :
    ∃ a, r.link = resolveHref base a := by
  cases hdd : dd.a? with
  | some a =>
    simp only [pairRecord, hdd, Option.some.injEq] at h
    subst h
    exact ⟨a.href, rfl⟩
  | none =>
    cases hdt : dt.a? with
    | none => simp [pairRecord, hdd, hdt] at h
    | some a =>
      simp only [pairRecord, hdd, hdt, Option.some.injEq] at h
      subst h
      exact ⟨a.href, rfl⟩

/-- Every record of Strategy A's result comes from some list item of some
scanned unordered list. -/
theorem mem_strategyA (base : String) (uls : List UlElem) (r : NewsRecord)
    (h : r ∈ strategyA base uls) :
    ∃ ul ∈ uls, ∃ li ∈ ul.lis, liRecord base li = some r := by
  rw [strategyA_char] at h
  split at h
  case h_1 ul hfind =>
    have hul : ul ∈ uls := List.mem_of_find?_eq_some hfind
    have hb : r ∈ batchA base ul := List.take_subset _ _ h
    rcases List.mem_filterMap.mp hb with ⟨li, hli, heq⟩
    exact ⟨ul, hul, li, hli, heq⟩
  case h_2 => simp at h

/-- Every record of Strategy B's result comes from some zipped
term/description pair of some scanned definition list. -/
theorem mem_strategyB (base : String) (dls : List DlElem) (r : NewsRecord)
    (h : r ∈ strategyB base dls) :
    ∃ dl ∈ dls, ∃ p ∈ dl.dts.zip dl.dds, pairRecord base p.1 p.2 = some r := by
  rw [strategyB_char] at h
  split at h
  case h_1 dl hfind =>
    have hdl : dl ∈ dls := List.mem_of_find?_eq_some hfind
    have hb : r ∈ batchB base dl := List.take_subset _ _ h
    rcases List.mem_filterMap.mp hb with ⟨p, hp, heq⟩
    exact ⟨dl, hdl, p, hp, heq⟩
  case h_2 => simp at h

/-- The extractor's result is Strategy A's, or Strategy A produced nothing
and it is Strategy B's. -/
theorem extractIrNews_cases (doc : Doc) (base : String) :
    extractIrNews doc base = strategyA base doc.uls ∨
      (strategyA base doc.uls = [] ∧ extractIrNews doc base = strategyB base doc.dls) := by
  by_cases h : strategyA base doc.uls = []
  · right
    exact ⟨h, by simp [extractIrNews, h]⟩
  · left
    simp [extractIrNews, h]

/-- Every returned record belongs to one of the two strategies' results. -/
theorem mem_extract (doc : Doc) (base : String) (r : NewsRecord)
    (h : r ∈ extractIrNews doc base) :
    r ∈ strategyA base doc.uls ∨ r ∈ strategyB base doc.dls := by
  rcases extractIrNews_cases doc base with hc | ⟨_, hc⟩
  · exact Or.inl (hc ▸ h)
  · exact Or.inr (hc ▸ h)

/-- A resolved href is empty, starts with `"http"`, or is the join of the
base with an href that does not start with `"http"`. -/
theorem resolveHref_shape (base href : String) :
    resolveHref base href = "" ∨ startsWithHttp (resolveHref base href) = true ∨
      ∃ h, startsWithHttp h = false ∧ resolveHref base href = urljoin base h := by
  by_cases he : href = ""
  · left
    simp [resolveHref, he]
  · by_cases hh : startsWithHttp href
    · right; left
      simp [resolveHref, he, hh]
    · right; right
      refine ⟨href, by simpa using hh, ?_⟩
      simp [resolveHref, he, hh]

/-- C1 (amended): `_extract_date` scans the element's text nodes in document
order and returns the whole first stripped text node on which the
date-pattern search succeeds — not merely the matching substring — and the
empty string when no text node matches; a text node that is exactly
`2024/03/15` therefore yields exactly `2024/03/15` as `date`. -/
theorem c1_extract_date_first_matching_node :
    (∀ texts : List String,
      extractDate texts = ((texts.find? hasDatePat).map pyStrip).getD "") ∧
    extractDate ["2024/03/15"] = "2024/03/15" ∧
    extractDate ["released today"] = "" := by
  refine ⟨?_, by decide, by decide⟩
  intro texts
  induction texts with
  | nil => rfl
  | cons s rest ih =>
    by_cases h : hasDatePat s
    · rw [List.find?_cons_of_pos _ h]
      simp [extractDate, h]
    · rw [List.find?_cons_of_neg _ (by simp [h])]
      simp [extractDate, h, ih]

/-- C1 counterexample: a text node that merely contains `2024/03/15` yields
the whole node text as `date`, not the matching substring `2024/03/15`
claimed by the spec. -/
theorem c1_counterexample :
    extractDate ["Notice: 2024/03/15 (PDF)"] = "Notice: 2024/03/15 (PDF)" ∧
    "Notice: 2024/03/15 (PDF)" ≠ "2024/03/15" :=
  ⟨by decide, by decide⟩

/-- C2 (amended): every returned record's fields are always strings (never
null); a record produced by Strategy A has a non-empty title (its length is
at least 5), while a record produced by Strategy B carries the anchor's
visible text as title, which may be the empty string. -/
theorem c2_title_invariant (doc : Doc) (base : String) (r : NewsRecord)
    (h : r ∈ extractIrNews doc base) :
    (r ∈ strategyA base doc.uls ∧ r.title ≠ "") ∨ r ∈ strategyB base doc.dls := by
  rcases mem_extract doc base r h with hA | hB
  · left
    refine ⟨hA, ?_⟩
    rcases mem_strategyA base doc.uls r hA with ⟨ul, _, li, _, heq⟩
    have h5 := (liRecord_spec base li r heq).1
    intro he
    rw [he] at h5
    exact absurd h5 (by decide)
  · right; exact hB

/-- C2 witness: the amended invariant instantiated on the record the
extractor returns for the concrete document `c3Doc`. -/
theorem c2_witness :
    (c3Rec1 ∈ strategyA c3Base c3Doc.uls ∧ c3Rec1.title ≠ "") ∨
      c3Rec1 ∈ strategyB c3Base c3Doc.dls :=
  c2_title_invariant c3Doc c3Base c3Rec1 (by decide)

/-- C2 counterexample: Strategy B applies no title filter, so a definition
list whose anchors have empty visible text makes the extractor return
records whose `title` is the empty string. -/
theorem c2_counterexample :
    (extractIrNews c2Doc "https://example.com/").map NewsRecord.title = ["", ""] ∧
    extractIrNews c2Doc "https://example.com/" ≠ [] :=
  ⟨by decide, by decide⟩

/-- C3: Strategy A accepts the first unordered list in document order whose
batch of qualifying items reaches at least 3; the accepted batch truncated
to its first 20 items is the entire result and scanning stops, so at most
20 records are returned; on the concrete document whose only list holds
exactly 3 qualifying date-free items, the extractor returns exactly those
3 records with empty `date`. -/
theorem c3_strategyA_acceptance :
    (∀ base uls, strategyA base uls =
        match uls.find? (fun ul => decide (3 ≤ (batchA base ul).length)) with
        | some ul => (batchA base ul).take 20
        | none => []) ∧
    (∀ base uls, (strategyA base uls).length ≤ 20) ∧
    extractIrNews c3Doc c3Base =
      [⟨"", "Quarterly results announced", "https://example.com/news/1", "IR"⟩,
       ⟨"", "New product line unveiled", "https://example.com/news/2", "IR"⟩,
       ⟨"", "Office relocation notice", "https://example.com/news/3", "IR"⟩] := by
  refine ⟨strategyA_char, ?_, by decide⟩
  intro base uls
  rw [strategyA_char]
  split
  · exact le_trans (List.length_take_le _ _) (le_refl 20)
  · simp

/-- C4: Strategy B runs only when Strategy A accepted no list; it skips
definition lists with fewer than 2 term elements, pairs term i with
description i, takes the anchor from the description or else the term and
skips anchorless pairs, and accepts the first definition list whose batch
reaches 2 qualifying pairs, truncated to 20; on the concrete document with
one `<dl>` of 2 anchored pairs, the extractor returns exactly 2 records. -/
theorem c4_strategyB_acceptance :
    (∀ doc base, extractIrNews doc base = strategyA base doc.uls ∨
        (strategyA base doc.uls = [] ∧ extractIrNews doc base = strategyB base doc.dls)) ∧
    (∀ base dls, strategyB base dls =
        match dls.find? (fun dl =>
            !decide (dl.dts.length < 2) && decide (2 ≤ (batchB base dl).length)) with
        | some dl => (batchB base dl).take 20
        | none => []) ∧
    extractIrNews c4Doc "https://example.com/" =
      [⟨"2024.01.10", "Earnings report released", "https://example.com/ir/1", "IR"⟩,
       ⟨"2024.02.20", "Dividend forecast revised", "https://example.com/ir/2", "IR"⟩] :=
  ⟨extractIrNews_cases, strategyB_char, by decide⟩

/-- C5: for every input document and base URL, no record produced by
Strategy A has a title of length less than 5: items whose anchor text is
shorter are discarded and contribute nothing to the batch. -/
theorem c5_strategyA_title_min (base : String) (uls : List UlElem) (r : NewsRecord)
    (h : r ∈ strategyA base uls) : ¬ r.title.length < 5 := by
  rcases mem_strategyA base uls r h with ⟨ul, _, li, _, heq⟩
  exact Nat.not_lt.mpr (liRecord_spec base li r heq).1

/-- C5 witness: the bound instantiated on a record Strategy A returns for
the concrete document `c3Doc`. -/
theorem c5_witness : ¬ c3Rec1.title.length < 5 :=
  c5_strategyA_title_min c3Base c3Doc.uls c3Rec1 (by decide)

/-- C6 (amended): an href is treated as absolute exactly when it starts
with `"http"`: such hrefs, and empty ones, are stored unchanged (so a
relative href that happens to begin with `http` stays relative), and every
other non-empty href is resolved against the base URL with `urljoin`; hence
every returned link is empty, starts with `"http"`, or is the join of the
base URL with some href not starting with `"http"`. -/
theorem c6_link_resolution (doc : Doc) (base : String) (r : NewsRecord)
    (h : r ∈ extractIrNews doc base) :
    r.link = "" ∨ startsWithHttp r.link = true ∨
      ∃ href, startsWithHttp href = false ∧ r.link = urljoin base href := by
  have hlink : ∃ a, r.link = resolveHref base a := by
    rcases mem_extract doc base r h with hA | hB
    · rcases mem_strategyA base doc.uls r hA with ⟨ul, _, li, _, heq⟩
      exact (liRecord_spec base li r heq).2
    · rcases mem_strategyB base doc.dls r hB with ⟨dl, _, p, _, heq⟩
      exact pairRecord_spec base p.1 p.2 r heq
  rcases hlink with ⟨a, ha⟩
  rw [ha]
  exact resolveHref_shape base a

/-- C6 witness: the amended link shape instantiated on a record the
extractor returns for the concrete document `c3Doc`. -/
theorem c6_witness :
    c3Rec1.link = "" ∨ startsWithHttp c3Rec1.link = true ∨
      ∃ href, startsWithHttp href = false ∧ c3Rec1.link = urljoin c3Base href :=
  c6_link_resolution c3Doc c3Base c3Rec1 (by decide)

/-- C6 counterexample: an anchor href `httpnews/page1.html` is a relative
reference (it contains no colon, hence no scheme), yet because it begins
with the four letters `http` the extractor stores it unchanged, so a
returned link can be a relative URL. -/
theorem c6_counterexample :
    (extractIrNews c6Doc "https://example.com/ir/").map NewsRecord.link =
      ["httpnews/page1.html", "httpnews/page2.html", "httpnews/page3.html"] ∧
    ("httpnews/page1.html".data.contains ':') = false :=
  ⟨by decide, by decide⟩

/-- C7: every fetch function swallows failures of its underlying calls: a
raised or timed-out request, an HTTP error status (4xx/5xx), or a failed
parse makes `fetch_ir_news` return the empty list; a failed history call
makes `fetch_stock` return the empty frame and empty info map, and a failed
info access alone degrades to an empty info map; a failed feed parse makes
`fetch_google_news` return the empty list. No failure propagates. -/
theorem c7_fetchers_total :
    (∀ url, fetch_ir_news .raised url = []) ∧
    (∀ status parsed url, 400 ≤ status → status < 600 →
        fetch_ir_news (.response status parsed) url = []) ∧
    (∀ status url e, fetch_ir_news (.response status (.error e)) url = []) ∧
    (∀ infoCall, fetch_stock (.error ()) infoCall = (Frame.empty, InfoMap.empty)) ∧
    (∀ hist, fetch_stock (.ok hist) (.error ()) = (hist, InfoMap.empty)) ∧
    fetch_google_news (.error ()) = [] := by
  refine ⟨fun _ => rfl, ?_, ?_, fun _ => rfl, fun _ => rfl, rfl⟩
  · intro status parsed url h4 h6
    simp [fetch_ir_news, h4, h6]
  · intro status url e
    by_cases h : 400 ≤ status ∧ status < 600 <;> simp [fetch_ir_news, h]

/-- C7 witness: a 404 response yields the empty result. -/
theorem c7_witness :
    fetch_ir_news (.response 404 (.ok ⟨[], []⟩)) "https://example.com/" = [] :=
  c7_fetchers_total.2.1 404 (.ok ⟨[], []⟩) "https://example.com/" (by norm_num) (by norm_num)

/-- C8: when no unordered list's batch reaches Strategy A's threshold of 3
qualifying items and no definition list meets Strategy B's acceptance, the
extractor returns the empty sequence (it is a total function, so no error
is raised). -/
theorem c8_extract_empty (doc : Doc) (base : String)
    (hA : ∀ ul ∈ doc.uls, (batchA base ul).length < 3)
    (hB : ∀ dl ∈ doc.dls, dl.dts.length < 2 ∨ (batchB base dl).length < 2) :
    extractIrNews doc base = [] := by
  have hA' : strategyA base doc.uls = [] := by
    rw [strategyA_char]
    have hf : doc.uls.find? (fun ul => decide (3 ≤ (batchA base ul).length)) = none := by
      rw [List.find?_eq_none]
      intro ul hul
      simpa using Nat.not_le.mpr (hA ul hul)
    rw [hf]
  have hB' : strategyB base doc.dls = [] := by
    rw [strategyB_char]
    have hf : doc.dls.find? (fun dl =>
        !decide (dl.dts.length < 2) && decide (2 ≤ (batchB base dl).length)) = none := by
      rw [List.find?_eq_none]
      intro dl hdl
      rcases hB dl hdl with h | h
      · simp [h]
      · simp [Nat.not_le.mpr h]
    rw [hf]
  simp [extractIrNews, hA', hB']

/-- C8 witness: a document consisting of a single paragraph with an anchor
exposes no unordered and no definition list, so the extractor returns the
empty sequence. -/
theorem c8_witness : extractIrNews ⟨[], []⟩ "https://example.com/" = [] :=
  c8_extract_empty ⟨[], []⟩ "https://example.com/" (by simp) (by simp)

/-- C9: starting from a cache holding no entry for `key`, the first
`get_or_compute` call invokes the compute function and stores the result;
a second call within `ttl` of the first does not invoke it and returns the
stored value; a call made once `ttl` has elapsed since storage invokes it
again. -/
theorem c9_cache_ttl {α : Type} (c : Cache α) (key : String) (t0 t1 t2 ttl : Nat)
    (compute : Unit → α)
    (hnone : c.entries.find? (fun e => e.1 == key) = none)
    (h1 : t1 - t0 < ttl) (h2 : ttl ≤ t2 - t0) :
    (get_or_compute c key t0 ttl compute).2.2 = true ∧
    (get_or_compute (get_or_compute c key t0 ttl compute).2.1 key t1 ttl compute).2.2 = false ∧
    (get_or_compute (get_or_compute c key t0 ttl compute).2.1 key t1 ttl compute).1 =
      (get_or_compute c key t0 ttl compute).1 ∧
    (get_or_compute (get_or_compute c key t0 ttl compute).2.1 key t2 ttl compute).2.2 = true := by
  have hl0 : c.lookup key t0 ttl = none := by
    unfold Cache.lookup
    rw [hnone]
  have hstep : get_or_compute c key t0 ttl compute =
      (compute (), ⟨(key, compute (), t0) :: c.entries.filter (fun e => !(e.1 == key))⟩, true) := by
    unfold get_or_compute
    rw [hl0]
  have hl1 : Cache.lookup
      (⟨(key, compute (), t0) :: c.entries.filter (fun e => !(e.1 == key))⟩ : Cache α)
      key t1 ttl = some (compute ()) := by
    unfold Cache.lookup
    rw [List.find?_cons_of_pos _ (by simp)]
    simp [h1]
  have hl2 : Cache.lookup
      (⟨(key, compute (), t0) :: c.entries.filter (fun e => !(e.1 == key))⟩ : Cache α)
      key t2 ttl = none := by
    unfold Cache.lookup
    rw [List.find?_cons_of_pos _ (by simp)]
    have hx : ¬ t2 - t0 < ttl := by omega
    simp [hx]
  rw [hstep]
  refine ⟨rfl, ?_, ?_, ?_⟩
  · unfold get_or_compute
    rw [hl1]
  · unfold get_or_compute
    rw [hl1]
  · unfold get_or_compute
    rw [hl2]

/-- C9 witness: with ttl 300, calls at times 0 and 100 compute once and
reuse the stored value; a call at time 300 computes again. -/
theorem c9_witness :
    (get_or_compute (⟨[]⟩ : Cache Nat) "quotes" 0 300 (fun _ => 7)).2.2 = true ∧
    (get_or_compute (get_or_compute (⟨[]⟩ : Cache Nat) "quotes" 0 300 (fun _ => 7)).2.1
        "quotes" 100 300 (fun _ => 7)).2.2 = false ∧
    (get_or_compute (get_or_compute (⟨[]⟩ : Cache Nat) "quotes" 0 300 (fun _ => 7)).2.1
        "quotes" 100 300 (fun _ => 7)).1 =
      (get_or_compute (⟨[]⟩ : Cache Nat) "quotes" 0 300 (fun _ => 7)).1 ∧
    (get_or_compute (get_or_compute (⟨[]⟩ : Cache Nat) "quotes" 0 300 (fun _ => 7)).2.1
        "quotes" 300 300 (fun _ => 7)).2.2 = true :=
  c9_cache_ttl ⟨[]⟩ "quotes" 0 100 300 300 (fun _ => 7) rfl (by norm_num) (by norm_num)

/-- C10: Strategy B's zip iterates over exactly min(#terms, #descriptions)
pairs — term elements beyond the descriptions are silently ignored — so the
batch never exceeds the number of descriptions, and a definition list with
fewer than 2 description elements can never be accepted even if every term
contains an anchor. -/
theorem c10_zip_pairs (base : String) (dl : DlElem) :
    (dl.dts.zip dl.dds).length = min dl.dts.length dl.dds.length ∧
    (batchB base dl).length ≤ min dl.dts.length dl.dds.length ∧
    (dl.dds.length < 2 → (batchB base dl).length < 2 ∧ strategyB base [dl] = []) := by
  have hz : (dl.dts.zip dl.dds).length = min dl.dts.length dl.dds.length :=
    List.length_zip ..
  have hle : (batchB base dl).length ≤ (dl.dts.zip dl.dds).length :=
    List.length_filterMap_le _ _
  refine ⟨hz, hz ▸ hle, ?_⟩
  intro hdd
  have hb : (batchB base dl).length < 2 := by
    have hz' : (dl.dts.zip dl.dds).length ≤ dl.dds.length := by
      rw [hz]; exact Nat.min_le_right _ _
    omega
  refine ⟨hb, ?_⟩
  have hf : [dl].find? (fun dl' =>
      !decide (dl'.dts.length < 2) && decide (2 ≤ (batchB base dl').length)) = none := by
    rw [List.find?_eq_none]
    intro x hx
    simp only [List.mem_singleton] at hx
    subst hx
    simp [Nat.not_le.mpr hb]
  rw [strategyB_char, hf]

/-- C10 witness: a definition list with 3 anchored terms but a single
description yields a batch below the acceptance threshold and is never
accepted. -/
theorem c10_witness :
    (batchB "https://example.com/" c10Dl).length < 2 ∧
      strategyB "https://example.com/" [c10Dl] = [] :=
  (c10_zip_pairs "https://example.com/" c10Dl).2.2 (by decide)

end NewsStock
